import Mathlib

/-!
Verification of the password-policy checker
(`002 - Password_Policy_Checker/Password_Policy_Checker.py`).

The script reads a username and a password (both `.strip()`-ed), starts
from a score of 7, runs seven checks that each may decrement the score by
one and append one reason string, and finally classifies the score into a
level ("Strong" / "Medium" / "Weak").

Strings are modelled as `List Char`; Python's `str.lower`, `str.swapcase`,
`str.isalnum` and `str.strip` are modelled on their ASCII behaviour, which
is the fragment every check and every scenario of the repository exercises.
-/

namespace PasswordPolicy

/-- The list `specials = ['!', '@', '$', '?']` from the source. -/
def specials : List Char := ['!', '@', '$', '?']

/-- Check 1 condition: `len(password) <= 8`. -/
def lengthFails (password : List Char) : Bool :=
  password.length ≤ 8

/-- The `check_special` loop: scans the password for a character in
`specials`, breaking at the first hit. -/
def check_special (password : List Char) : Bool :=
  password.any fun character => character ∈ specials

/-- The `check_letter` loop: scans for `('a' <= c <= 'z') or ('A' <= c <= 'Z')`,
breaking at the first hit. -/
def check_letter (password : List Char) : Bool :=
  password.any fun character =>
    ('a' ≤ character && character ≤ 'z') || ('A' ≤ character && character ≤ 'Z')

/-- Check 2 condition: `not (check_letter and check_special)`. -/
def comboFails (password : List Char) : Bool :=
  !(check_letter password && check_special password)

/-- Check 3 condition: `password == username`. -/
def identityFails (username password : List Char) : Bool :=
  password == username

/-- One iteration of the case-flag loop: set `check_lower` on a lowercase
ASCII letter and (`elif`) `check_upper` on an uppercase one. -/
def caseStep (st : Bool × Bool) (character : Char) : Bool × Bool :=
  if 'a' ≤ character && character ≤ 'z' then (true, st.2)
  else if 'A' ≤ character && character ≤ 'Z' then (st.1, true)
  else st

/-- The case-flag loop over the whole password. -/
def caseFlags (password : List Char) : Bool × Bool :=
  password.foldl caseStep (false, false)

def check_lower (password : List Char) : Bool := (caseFlags password).1

def check_upper (password : List Char) : Bool := (caseFlags password).2

/-- Check 4 condition:
`(check_lower or check_upper) and not (check_lower and check_upper)`. -/
def caseFails (password : List Char) : Bool :=
  (check_lower password || check_upper password)
    && !(check_lower password && check_upper password)

/-- ASCII behaviour of Python `str.swapcase` on one character. -/
def swapChar (c : Char) : Char :=
  if 'a' ≤ c && c ≤ 'z' then Char.ofNat (c.toNat - 32)
  else if 'A' ≤ c && c ≤ 'Z' then Char.ofNat (c.toNat + 32)
  else c

/-- Python `username.swapcase()` (ASCII). -/
def swapcase (s : List Char) : List Char := s.map swapChar

/-- Check 5 condition:
`(password != username) and (password == username.swapcase())`. -/
def swapcaseFails (username password : List Char) : Bool :=
  !(password == username) && (password == swapcase username)

/-- ASCII behaviour of Python `str.lower` on one character. -/
def lowerChar (c : Char) : Char :=
  if 'A' ≤ c && c ≤ 'Z' then Char.ofNat (c.toNat + 32) else c

/-- Python `s.lower()` (ASCII). -/
def pyLower (s : List Char) : List Char := s.map lowerChar

/-- The translation table `t_i = {'@': 'a', '$': 's', '!': 'i', '0': 'o'}`. -/
def t_i (c : Char) : Char :=
  if c = '@' then 'a'
  else if c = '$' then 's'
  else if c = '!' then 'i'
  else if c = '0' then 'o'
  else c

/-- The translation table `t_l = {'@': 'a', '$': 's', '!': 'l', '0': 'o'}`. -/
def t_l (c : Char) : Char :=
  if c = '@' then 'a'
  else if c = '$' then 's'
  else if c = '!' then 'l'
  else if c = '0' then 'o'
  else c

/-- Source line `p_norm_i = password.lower().translate(t_i)`. -/
def p_norm_i (password : List Char) : List Char := (pyLower password).map t_i

/-- Source line `p_norm_l = password.lower().translate(t_l)`. -/
def p_norm_l (password : List Char) : List Char := (pyLower password).map t_l

/-- Source line `used_symbols = any(c in '@$!0' for c in password)`. -/
def used_symbols (password : List Char) : Bool :=
  password.any fun c => c ∈ ['@', '$', '!', '0']

/-- Check 6 condition:
`used_symbols and (p_norm_i == u_low or p_norm_l == u_low)`
where `u_low = username.lower()`. -/
def symbolFails (username password : List Char) : Bool :=
  used_symbols password
    && (p_norm_i password == pyLower username || p_norm_l password == pyLower username)

/-- The `common_pw` denylist from the source. -/
def common_pw : List (List Char) :=
  ["123456".data, "12345678".data, "123456789".data, "12345".data, "111111".data,
   "qwerty".data, "asdfgh".data, "zxcvbnm".data, "password".data, "admin".data]

/-- The translation table `t_pw = {'@': 'a', '$': 's', '0': 'o'}`. -/
def t_pw (c : Char) : Char :=
  if c = '@' then 'a'
  else if c = '$' then 's'
  else if c = '0' then 'o'
  else c

/-- ASCII behaviour of Python `str.isalnum` on one character. -/
def isAlnum (c : Char) : Bool :=
  ('a' ≤ c && c ≤ 'z') || ('A' ≤ c && c ≤ 'Z') || ('0' ≤ c && c ≤ '9')

/-- Source line building `pw_norm_alnum`: translate `t_pw` over the lowercased password, keep only alphanumerics. -/
def pw_norm_alnum (password : List Char) : List Char :=
  ((pyLower password).map t_pw).filter isAlnum

/-- Check 7 condition: `pw_low in common_pw`, `else` the alphanumeric
normalisation equals `"password"`.  Both branches append the same reason. -/
def commonFails (password : List Char) : Bool :=
  if pyLower password ∈ common_pw then true
  else pw_norm_alnum password == "password".data

/- The seven reason strings (verbatim from the source). -/

def reason_length : String := "Password must be longer than 8 characters."

def reason_combo : String :=
  "Password Failed: At least one letter and one special character must be present."

def reason_identity : String := "Password cannot be the same as username."

def reason_case : String := "Password cannot be all-lowercase or all-uppercase."

def reason_swapcase : String := "Password is swapcase version of username."

def reason_symbols : String :=
  "Password contains symbols replacing letters (e.g. \x27@\x27 for \x27a\x27)."

def reason_common : String := "Password is too common or similar to \x27password\x27."

/-- Source line `top_score = 7`. -/
def top_score : Int := 7

/-- The seven checks in source order, each paired with its reason string. -/
def checks (username password : List Char) : List (Bool × String) :=
  [(lengthFails password, reason_length),
   (comboFails password, reason_combo),
   (identityFails username password, reason_identity),
   (caseFails password, reason_case),
   (swapcaseFails username password, reason_swapcase),
   (symbolFails username password, reason_symbols),
   (commonFails password, reason_common)]

/-- One `if <cond>: score -= 1; failed_parameters.append(<reason>)` block. -/
def stepCheck (st : Int × List String) (c : Bool × String) : Int × List String :=
  if c.1 then (st.1 - 1, st.2 ++ [c.2]) else st

/-- The final `level` assignment:
`"Weak"`, overwritten by `"Strong"` if `score >= 5`, else `"Medium"` if `score >= 3`. -/
def levelOf (score : Int) : String :=
  if score ≥ 5 then "Strong" else if score ≥ 3 then "Medium" else "Weak"

/-- The printed outcome of one run: score, level and the failure reasons in
append order. -/
structure PolicyResult where
  score : Int
  level : String
  failures : List String

/-- The whole evaluation on already-stripped inputs: fold the seven check
blocks over the initial state `(top_score, [])`, then classify. -/
def evaluate (username password : List Char) : PolicyResult :=
  let r := (checks username password).foldl stepCheck (top_score, [])
  { score := r.1, level := levelOf r.1, failures := r.2 }

/-- Number of failed checks. -/
def numFailed (username password : List Char) : Nat :=
  ((checks username password).filter fun c => c.1).length

/-- Python `input(...).strip()` whitespace test (ASCII whitespace). -/
def isPySpace (c : Char) : Bool :=
  c = ' ' || c = '\t' || c = '\n' || c = '\x0b' || c = '\x0c' || c = '\r'

/-- Python `s.strip()`: drop whitespace from both ends. -/
def pyStrip (s : List Char) : List Char :=
  ((s.dropWhile isPySpace).reverse.dropWhile isPySpace).reverse

/-- The full program: both raw inputs are `.strip()`-ed (source lines 2-3)
before the evaluation runs. -/
def program (rawUsername rawPassword : List Char) : PolicyResult :=
  evaluate (pyStrip rawUsername) (pyStrip rawPassword)

/- The spec-side (natural-language) formulations used by the claims -/

/-- Spec-side: at least one ASCII letter. -/
def SpecHasLetter (p : List Char) : Prop :=
  ∃ c ∈ p, ('a' ≤ c ∧ c ≤ 'z') ∨ ('A' ≤ c ∧ c ≤ 'Z')

/-- Spec-side: at least one character from the specials set. -/
def SpecHasSpecial (p : List Char) : Prop :=
  ∃ c ∈ p, c ∈ specials

/-- Spec-side formulation of check 4: the password contains at least one
ASCII letter and all its letters are of a single case. -/
def SpecSingleCase (p : List Char) : Prop :=
  SpecHasLetter p ∧
    ((∀ c ∈ p, (('a' ≤ c ∧ c ≤ 'z') ∨ ('A' ≤ c ∧ c ≤ 'Z')) → 'a' ≤ c ∧ c ≤ 'z') ∨
     (∀ c ∈ p, (('a' ≤ c ∧ c ≤ 'z') ∨ ('A' ≤ c ∧ c ≤ 'Z')) → 'A' ≤ c ∧ c ≤ 'Z'))

/-- Spec-side case inversion of one character: lowercase letters map to their
uppercase counterpart and vice versa, non-letters are unchanged. -/
def SpecInvert (c : Char) : Char :=
  if c.isLower then c.toUpper else if c.isUpper then c.toLower else c

/- Basic lemmas -/

/-- Folding the check blocks subtracts one point per failed check and appends
the failed checks' reasons in order. -/
theorem foldl_stepCheck (l : List (Bool × String)) (s : Int) (f : List String) :
    l.foldl stepCheck (s, f) =
      (s - ((l.filter fun c => c.1).length : Int),
        f ++ (l.filter fun c => c.1).map fun c => c.2) := by
  induction l generalizing s f with
  | nil => simp
  | cons a t ih =>
    rcases a with ⟨b, r⟩
    cases b with
    | false => simp [stepCheck, ih]
    | true =>
      simp only [List.foldl_cons, stepCheck, if_pos, List.filter_cons_of_pos,
        List.map_cons, List.length_cons, ih, Prod.mk.injEq]
      constructor
      · push_cast; ring
      · simp

theorem score_eq (username password : List Char) :
    (evaluate username password).score = 7 - (numFailed username password : Int) := by
  simp [evaluate, foldl_stepCheck, numFailed, top_score]

theorem failures_eq (username password : List Char) :
    (evaluate username password).failures =
      ((checks username password).filter fun c => c.1).map fun c => c.2 := by
  simp [evaluate, foldl_stepCheck]

theorem numFailed_le (username password : List Char) :
    numFailed username password ≤ 7 := by
  have h := List.length_filter_le (fun c : Bool × String => c.1) (checks username password)
  simpa [checks] using h

/-- A lowercase ASCII letter is not an uppercase one (Bool form). -/
theorem lower_not_upper {c : Char} (h : ('a' ≤ c && c ≤ 'z') = true) :
    ('A' ≤ c && c ≤ 'Z') = false := by
  simp [Char.le_def, UInt32.le_def, BitVec.le_def] at h ⊢
  omega

/-- A lowercase ASCII letter is not an uppercase one (Prop form). -/
theorem prop_lower_not_upper {c : Char} (h : 'a' ≤ c ∧ c ≤ 'z') :
    ¬('A' ≤ c ∧ c ≤ 'Z') := by
  rintro h2
  have hb : ('a' ≤ c && c ≤ 'z') = true := by simp [h.1, h.2]
  have hf := lower_not_upper hb
  simp [h2.1, h2.2] at hf

/-- The source's lowercase-range test agrees with the library's
`Char.isLower`. -/
theorem lower_eq_isLower (c : Char) : ('a' ≤ c && c ≤ 'z') = c.isLower := by
  simp [Char.isLower, Char.le_def, UInt32.le_def, BitVec.le_def, ge_iff_le]

/-- The source's uppercase-range test agrees with the library's
`Char.isUpper`. -/
theorem upper_eq_isUpper (c : Char) : ('A' ≤ c && c ≤ 'Z') = c.isUpper := by
  simp [Char.isUpper, Char.le_def, UInt32.le_def, BitVec.le_def, ge_iff_le]

/-- The single-pass case loop computes the same flags as two existence
scans (the `elif` never hides an uppercase letter, as the ranges are
disjoint). -/
theorem caseFlags_eq (p : List Char) :
    caseFlags p =
      (p.any fun c => 'a' ≤ c && c ≤ 'z', p.any fun c => 'A' ≤ c && c ≤ 'Z') := by
  suffices h : ∀ st : Bool × Bool,
      p.foldl caseStep st
      = (st.1 || p.any fun c => 'a' ≤ c && c ≤ 'z',
         st.2 || p.any fun c => 'A' ≤ c && c ≤ 'Z') by
    simpa [caseFlags] using h (false, false)
  induction p with
  | nil => simp
  | cons c t ih =>
    intro st
    rw [List.foldl_cons]
    by_cases hl : ('a' ≤ c && c ≤ 'z') = true
    · have hu := lower_not_upper hl
      rw [show caseStep st c = (true, st.2) by unfold caseStep; rw [if_pos hl]]
      rw [ih]
      simp [hl, hu]
    · by_cases hu : ('A' ≤ c && c ≤ 'Z') = true
      · rw [show caseStep st c = (st.1, true) by unfold caseStep; rw [if_neg hl, if_pos hu]]
        rw [ih]
        simp [hl, hu, Bool.or_assoc]
      · rw [show caseStep st c = st by unfold caseStep; rw [if_neg hl, if_neg hu]]
        rw [ih]
        simp [hl, hu]

/-- A password with no ASCII letter never fails the case-mixing check. -/
theorem no_letter_caseFails (p : List Char)
    (h : ∀ c ∈ p, (('a' ≤ c && c ≤ 'z') || ('A' ≤ c && c ≤ 'Z')) = false) :
    caseFails p = false := by
  unfold caseFails check_lower check_upper
  rw [caseFlags_eq]
  have h1 : (p.any fun c => 'a' ≤ c && c ≤ 'z') = false := by
    rw [List.any_eq_false]
    intro c hc
    have := h c hc
    rw [Bool.or_eq_false_iff] at this
    simp [this.1]
  have h2 : (p.any fun c => 'A' ≤ c && c ≤ 'Z') = false := by
    rw [List.any_eq_false]
    intro c hc
    have := h c hc
    rw [Bool.or_eq_false_iff] at this
    simp [this.2]
  simp [h1, h2]

/-- The source's ASCII `swapcase` step agrees with the spec-side case
inversion built from the library's `Char.isLower` / `Char.toUpper`. -/
theorem swapChar_eq (c : Char) : swapChar c = SpecInvert c := by
  by_cases hl : ('a' ≤ c && c ≤ 'z') = true
  · have hlow : c.isLower = true := lower_eq_isLower c ▸ hl
    have lhs : swapChar c = Char.ofNat (c.toNat - 32) := by
      unfold swapChar; rw [if_pos hl]
    have htu : c.toUpper = Char.ofNat (c.toNat - 32) := by
      have hl2 := hl
      simp [Char.le_def, UInt32.le_def, BitVec.le_def] at hl2
      simp [Char.toUpper, Char.toNat, UInt32.toNat]
      omega
    have rhs : SpecInvert c = Char.ofNat (c.toNat - 32) := by
      unfold SpecInvert; rw [if_pos hlow, htu]
    rw [lhs, rhs]
  · have hnlow : c.isLower = false := by
      rw [← lower_eq_isLower]
      exact Bool.not_eq_true _ ▸ hl
    by_cases hu : ('A' ≤ c && c ≤ 'Z') = true
    · have hup : c.isUpper = true := upper_eq_isUpper c ▸ hu
      have lhs : swapChar c = Char.ofNat (c.toNat + 32) := by
        unfold swapChar; rw [if_neg hl, if_pos hu]
      have htl : c.toLower = Char.ofNat (c.toNat + 32) := by
        have hu2 := hu
        simp [Char.le_def, UInt32.le_def, BitVec.le_def] at hu2
        simp [Char.toLower, Char.toNat, UInt32.toNat]
        omega
      have rhs : SpecInvert c = Char.ofNat (c.toNat + 32) := by
        unfold SpecInvert; rw [if_neg (by simp [hnlow]), if_pos hup, htl]
      rw [lhs, rhs]
    · have hnup : c.isUpper = false := by
        rw [← upper_eq_isUpper]
        exact Bool.not_eq_true _ ▸ hu
      have lhs : swapChar c = c := by
        unfold swapChar; rw [if_neg hl, if_neg hu]
      have rhs : SpecInvert c = c := by
        unfold SpecInvert; rw [if_neg (by simp [hnlow]), if_neg (by simp [hnup])]
      rw [lhs, rhs]

/- Claim theorems -/

/-- C1: for every username and password the final score lies between 0 and 7,
equals `7 - (number of failed checks)`, the failures list has length
`7 - score`, and after every prefix of the seven check blocks the running
state satisfies `score = 7 - length failures` (each failed check subtracts
exactly 1 and appends exactly one reason). -/
theorem C1_score_invariant (username password : List Char) :
    0 ≤ (evaluate username password).score ∧
    (evaluate username password).score ≤ 7 ∧
    (evaluate username password).score = 7 - (numFailed username password : Int) ∧
    ((evaluate username password).failures.length : Int) =
      7 - (evaluate username password).score ∧
    ∀ k : Nat,
      ((((checks username password).take k).foldl stepCheck (top_score, [])).1) =
        7 - (((((checks username password).take k).foldl stepCheck
          (top_score, [])).2).length : Int) := by
  have hn := numFailed_le username password
  have hs := score_eq username password
  have hf := failures_eq username password
  refine ⟨?_, ?_, hs, ?_, ?_⟩
  · rw [hs]; omega
  · rw [hs]; omega
  · rw [hf, hs]
    simp only [List.length_map]
    rw [show ((List.filter (fun c => c.1) (checks username password)).length : Int)
        = (numFailed username password : Int) from rfl]
    omega
  · intro k
    rw [foldl_stepCheck]
    simp [top_score]

/-- C2: the level is derived solely from the final score by fixed thresholds:
`score >= 5` gives "Strong", `3 <= score < 5` gives "Medium", `score < 3`
gives "Weak"; in particular a score of exactly 3 gives "Medium". -/
theorem C2_level_thresholds (username password : List Char) (s : Int) :
    (evaluate username password).level = levelOf (evaluate username password).score ∧
    (levelOf s = "Strong" ↔ 5 ≤ s) ∧
    (levelOf s = "Medium" ↔ 3 ≤ s ∧ s < 5) ∧
    (levelOf s = "Weak" ↔ s < 3) ∧
    levelOf 3 = "Medium" := by
  refine ⟨rfl, ?_, ?_, ?_, by decide⟩ <;>
    · unfold levelOf
      split_ifs <;> simp_all <;> omega

/-- C3 as stated is false: for username "alice" and password "alice123" the
score is not 5 and the number of recorded failures is not 2 (the password is
all-lowercase, so the case-mixing check also fails). -/
theorem C3_counterexample :
    ¬((evaluate "alice".data "alice123".data).score = 5 ∧
      (evaluate "alice".data "alice123".data).level = "Medium" ∧
      (evaluate "alice".data "alice123".data).failures.length = 2) := by
  decide

/-- C3 amended: for username "alice" and password "alice123" the evaluation
fails exactly three checks (length, letter+special combo, and case mixing),
yielding score 4, level "Medium", and exactly those three failure reasons in
order. -/
theorem C3_amended :
    (evaluate "alice".data "alice123".data).score = 4 ∧
    (evaluate "alice".data "alice123".data).level = "Medium" ∧
    (evaluate "alice".data "alice123".data).failures =
      [reason_length, reason_combo, reason_case] := by
  decide

/-- C4: the length check fails if and only if the password has at most 8
characters; a length-8 password fails it, a length-9 password passes it, and
the empty password fails it (the embedding is total, so no exception can
arise). -/
theorem C4_length_check (username p : List Char) :
    (lengthFails p = true ↔ p.length ≤ 8) ∧
    (reason_length ∈ (evaluate username p).failures ↔ p.length ≤ 8) ∧
    lengthFails "12345@Ab".data = true ∧
    lengthFails "123456@Ab".data = false ∧
    lengthFails ([] : List Char) = true := by
  have h : lengthFails p = true ↔ p.length ≤ 8 := by simp [lengthFails]
  refine ⟨h, ?_, by decide, by decide, by decide⟩
  rw [failures_eq, ← h]
  simp [checks, List.mem_filter, reason_length, reason_combo, reason_identity,
    reason_case, reason_swapcase, reason_symbols, reason_common]

/-- C5: the letter-and-special check fails if and only if the password does
not contain both at least one ASCII letter and at least one character from
`{!, @, $, ?}`; a digits-and-specials-only password fails it, and a
letters-only password fails it. -/
theorem C5_combo_check (username p : List Char) :
    (comboFails p = true ↔ ¬(SpecHasLetter p ∧ SpecHasSpecial p)) ∧
    (reason_combo ∈ (evaluate username p).failures ↔
      ¬(SpecHasLetter p ∧ SpecHasSpecial p)) ∧
    comboFails "123$?!".data = true ∧
    comboFails "abcXYZ".data = true := by
  have hl : check_letter p = true ↔ SpecHasLetter p := by
    unfold check_letter SpecHasLetter; simp
  have hsp : check_special p = true ↔ SpecHasSpecial p := by
    unfold check_special SpecHasSpecial; simp
  have h : comboFails p = true ↔ ¬(SpecHasLetter p ∧ SpecHasSpecial p) := by
    rw [← hl, ← hsp]
    unfold comboFails
    cases check_letter p <;> cases check_special p <;> simp
  refine ⟨h, ?_, by decide, by decide⟩
  rw [failures_eq, ← h]
  simp [checks, List.mem_filter, reason_length, reason_combo, reason_identity,
    reason_case, reason_swapcase, reason_symbols, reason_common]

/-- C6: the case-mixing check fails if and only if the password contains at
least one ASCII letter and all its letters are of a single case; a password
with no letters (such as "12345678!") never fails it, and filtering all
letters out of any password yields one that does not fail it even when it
fails other checks. -/
theorem C6_case_check (username p : List Char) :
    (caseFails p = true ↔ SpecSingleCase p) ∧
    (reason_case ∈ (evaluate username p).failures ↔ SpecSingleCase p) ∧
    caseFails "12345678!".data = false ∧
    caseFails (p.filter fun c =>
      !(('a' ≤ c && c ≤ 'z') || ('A' ≤ c && c ≤ 'Z'))) = false := by
  have hL : check_lower p = true ↔ (∃ c ∈ p, 'a' ≤ c ∧ c ≤ 'z') := by
    unfold check_lower
    rw [caseFlags_eq]
    simp
  have hU : check_upper p = true ↔ (∃ c ∈ p, 'A' ≤ c ∧ c ≤ 'Z') := by
    unfold check_upper
    rw [caseFlags_eq]
    simp
  have hb : caseFails p = true ↔
      (((∃ c ∈ p, 'a' ≤ c ∧ c ≤ 'z') ∨ (∃ c ∈ p, 'A' ≤ c ∧ c ≤ 'Z')) ∧
        ¬((∃ c ∈ p, 'a' ≤ c ∧ c ≤ 'z') ∧ (∃ c ∈ p, 'A' ≤ c ∧ c ≤ 'Z'))) := by
    have hbool : ∀ a b : Bool, ((a || b) && !(a && b)) = true ↔
        ((a = true ∨ b = true) ∧ ¬(a = true ∧ b = true)) := by decide
    unfold caseFails
    rw [hbool, hL, hU]
  have hspec : SpecSingleCase p ↔
      (((∃ c ∈ p, 'a' ≤ c ∧ c ≤ 'z') ∨ (∃ c ∈ p, 'A' ≤ c ∧ c ≤ 'Z')) ∧
        ¬((∃ c ∈ p, 'a' ≤ c ∧ c ≤ 'z') ∧ (∃ c ∈ p, 'A' ≤ c ∧ c ≤ 'Z'))) := by
    unfold SpecSingleCase SpecHasLetter
    constructor
    · rintro ⟨⟨c, hc, hcase⟩, hall⟩
      constructor
      · rcases hcase with h | h
        exacts [Or.inl ⟨c, hc, h⟩, Or.inr ⟨c, hc, h⟩]
      · rintro ⟨⟨cl, hcl, hl⟩, ⟨cu, hcu, hu⟩⟩
        rcases hall with hall | hall
        · exact prop_lower_not_upper (hall cu hcu (Or.inr hu)) hu
        · exact prop_lower_not_upper hl (hall cl hcl (Or.inl hl))
    · rintro ⟨hex, hnand⟩
      constructor
      · rcases hex with ⟨c, hc, h⟩ | ⟨c, hc, h⟩
        exacts [⟨c, hc, Or.inl h⟩, ⟨c, hc, Or.inr h⟩]
      · by_cases hPU : ∃ c ∈ p, 'A' ≤ c ∧ c ≤ 'Z'
        · right
          intro c hc hcase
          rcases hcase with h | h
          · exact (hnand ⟨⟨c, hc, h⟩, hPU⟩).elim
          · exact h
        · left
          intro c hc hcase
          rcases hcase with h | h
          · exact h
          · exact (hPU ⟨c, hc, h⟩).elim
  have h : caseFails p = true ↔ SpecSingleCase p := hb.trans hspec.symm
  refine ⟨h, ?_, by decide, ?_⟩
  · rw [failures_eq, ← h]
    simp [checks, List.mem_filter, reason_length, reason_combo, reason_identity,
      reason_case, reason_swapcase, reason_symbols, reason_common]
  · refine no_letter_caseFails _ ?_
    intro c hc
    rw [List.mem_filter] at hc
    have := hc.2
    rwa [Bool.not_eq_true'] at this

/-- C7: the swapcase check fails if and only if the password differs from
the username but equals the username with every letter's case inverted
(non-letters unchanged); "Tom" / "tOM" fails it, and the identity check and
the swapcase check can never both fail. -/
theorem C7_swapcase_check (username p : List Char) :
    (swapcaseFails username p = true ↔
      (p ≠ username ∧ p = username.map SpecInvert)) ∧
    (reason_swapcase ∈ (evaluate username p).failures ↔
      (p ≠ username ∧ p = username.map SpecInvert)) ∧
    swapcaseFails "Tom".data "tOM".data = true ∧
    ¬(identityFails username p = true ∧ swapcaseFails username p = true) := by
  have hmap : swapcase username = username.map SpecInvert := by
    unfold swapcase
    exact List.map_congr_left fun c _ => swapChar_eq c
  have h : swapcaseFails username p = true ↔
      (p ≠ username ∧ p = username.map SpecInvert) := by
    unfold swapcaseFails
    rw [hmap]
    simp
  refine ⟨h, ?_, by decide, ?_⟩
  · rw [failures_eq, ← h]
    simp [checks, List.mem_filter, reason_length, reason_combo, reason_identity,
      reason_case, reason_swapcase, reason_symbols, reason_common]
  · rintro ⟨h1, h2⟩
    unfold identityFails at h1
    unfold swapcaseFails at h2
    simp only [beq_iff_eq] at h1
    simp only [Bool.and_eq_true, Bool.not_eq_true', beq_eq_false_iff_ne, ne_eq,
      beq_iff_eq] at h2
    exact h2.1 h1

/-- Each reason string can appear in `failures` at most as often as it
appears among the seven checks' reasons. -/
theorem count_failures_le (username p : List Char) (r : String) :
    (evaluate username p).failures.count r ≤
      ((checks username p).map fun c => c.2).count r := by
  rw [failures_eq]
  exact List.Sublist.count_le
    (List.Sublist.map _ (List.filter_sublist (checks username p))) r

/-- Stripping written with the library's drop-from-the-right. -/
theorem pyStrip_eq (s : List Char) :
    pyStrip s = List.rdropWhile isPySpace (s.dropWhile isPySpace) := rfl

/-- Stripping is idempotent. -/
theorem pyStrip_idem (s : List Char) : pyStrip (pyStrip s) = pyStrip s := by
  rw [pyStrip_eq, pyStrip_eq]
  have hda : List.dropWhile isPySpace (s.dropWhile isPySpace) = s.dropWhile isPySpace :=
    List.dropWhile_idempotent _ _
  have hdc : List.dropWhile isPySpace
      (List.rdropWhile isPySpace (s.dropWhile isPySpace))
      = List.rdropWhile isPySpace (s.dropWhile isPySpace) := by
    rcases hc : List.rdropWhile isPySpace (s.dropWhile isPySpace) with _ | ⟨x, c'⟩
    · simp
    · have hpre := List.rdropWhile_prefix (p := isPySpace) (l := s.dropWhile isPySpace)
      rw [hc] at hpre
      obtain ⟨t, ht⟩ := hpre
      have hax : s.dropWhile isPySpace = x :: (c' ++ t) := by
        rw [← ht]; rfl
      have hqx : isPySpace x = false := by
        have h0 : 0 < (s.dropWhile isPySpace).length := by rw [hax]; simp
        have hnot := List.dropWhile_get_zero_not (p := isPySpace) s h0
        have hget : (s.dropWhile isPySpace).get ⟨0, h0⟩ = x := by
          rw [List.get_of_eq hax ⟨0, h0⟩]
          rfl
        rw [hget] at hnot
        rwa [Bool.not_eq_true] at hnot
      rw [List.dropWhile_cons_of_neg (by simp [hqx])]
  rw [hdc, List.rdropWhile_idempotent]

/-- C8: the symbol-substitution check fails if and only if the password
contains one of `@`, `$`, `!`, `0` and at least one of the two normalised
forms (with `!` read as "i" or as "l") equals the lowercased username; both
normalisations are genuinely compared (each of the two concrete runs below
is matched only by one of them). -/
theorem C8_symbol_check (username p : List Char) :
    (symbolFails username p = true ↔
      ((∃ c ∈ p, c ∈ ['@', '$', '!', '0']) ∧
        (p_norm_i p = pyLower username ∨ p_norm_l p = pyLower username))) ∧
    (reason_symbols ∈ (evaluate username p).failures ↔
      ((∃ c ∈ p, c ∈ ['@', '$', '!', '0']) ∧
        (p_norm_i p = pyLower username ∨ p_norm_l p = pyLower username))) ∧
    symbolFails "al".data "@!".data = true ∧
    p_norm_i "@!".data ≠ pyLower "al".data ∧
    symbolFails "ai".data "@!".data = true ∧
    p_norm_l "@!".data ≠ pyLower "ai".data := by
  have h : symbolFails username p = true ↔
      ((∃ c ∈ p, c ∈ ['@', '$', '!', '0']) ∧
        (p_norm_i p = pyLower username ∨ p_norm_l p = pyLower username)) := by
    unfold symbolFails used_symbols
    simp
  refine ⟨h, ?_, by decide, by decide, by decide, by decide⟩
  rw [failures_eq, ← h]
  simp [checks, List.mem_filter, reason_length, reason_combo, reason_identity,
    reason_case, reason_swapcase, reason_symbols, reason_common]

/-- C9: the common-password check fails if and only if the lowercased
password is in the fixed denylist, or is not in the denylist but its
symbol-substituted alphanumeric normalisation equals "password"; the two
branches are mutually exclusive and the check appends at most one reason. -/
theorem C9_common_check (username p : List Char) :
    (commonFails p = true ↔
      (pyLower p ∈ common_pw ∨
        (pyLower p ∉ common_pw ∧ pw_norm_alnum p = "password".data))) ∧
    ¬(pyLower p ∈ common_pw ∧
      (pyLower p ∉ common_pw ∧ pw_norm_alnum p = "password".data)) ∧
    (reason_common ∈ (evaluate username p).failures ↔ commonFails p = true) ∧
    (evaluate username p).failures.count reason_common ≤ 1 := by
  have h : commonFails p = true ↔
      (pyLower p ∈ common_pw ∨
        (pyLower p ∉ common_pw ∧ pw_norm_alnum p = "password".data)) := by
    unfold commonFails
    split_ifs with hmem <;> simp [hmem]
  refine ⟨h, ?_, ?_, ?_⟩
  · rintro ⟨h1, h2, -⟩
    exact h2 h1
  · rw [failures_eq]
    simp [checks, List.mem_filter, reason_length, reason_combo, reason_identity,
      reason_case, reason_swapcase, reason_symbols, reason_common]
  · calc (evaluate username p).failures.count reason_common
        ≤ ((checks username p).map fun c => c.2).count reason_common :=
          count_failures_le username p reason_common
      _ = 1 := by
          rw [show ((checks username p).map fun c => c.2)
              = [reason_length, reason_combo, reason_identity, reason_case,
                 reason_swapcase, reason_symbols, reason_common] from rfl]
          decide

/-- C10: both raw inputs are stripped of leading and trailing whitespace
before any check runs, so the program's whole output coincides with its
output on the stripped inputs; a 9-character password ending in a space is
evaluated as its 8-character stripped form and fails the length check. -/
theorem C10_strip_inputs (rawUsername rawPassword : List Char) :
    program rawUsername rawPassword
      = evaluate (pyStrip rawUsername) (pyStrip rawPassword) ∧
    program rawUsername rawPassword
      = program (pyStrip rawUsername) (pyStrip rawPassword) ∧
    pyStrip "12345$Ab ".data = "12345$Ab".data ∧
    ("12345$Ab ".data.length = 9 ∧ (pyStrip "12345$Ab ".data).length = 8) ∧
    reason_length ∈ (program "alice".data "12345$Ab ".data).failures := by
  refine ⟨rfl, ?_, by decide, by decide, by decide⟩
  unfold program
  rw [pyStrip_idem, pyStrip_idem]

end PasswordPolicy
